/-
Verification of the ANKI_to_PDF pipeline (src/ANKI_to_PDF.py) against its
natural-language specification.

The Python source is shallowly embedded below.  External collaborators
(the AnkiConnect HTTP transport, the HTML tree parser, base64 decoding,
the Pillow recompressor, ReportLab's ImageReader/Paragraph and the
ocrmypdf engine) are passed in as function parameters, mirroring the
spec's "external interfaces"; all control flow, state (media cache,
error log) and arithmetic of the source itself is translated directly.
Floating-point arithmetic of the source is embedded over ℚ.
-/
import Mathlib

namespace AnkiToPdf

/-! ## Generic string helpers (embedding Python `str` operations used by the source) -/

/-- Does the list start with the pattern `pat`? (Python `str.startswith` on char lists.) -/
def listStarts : List Char → List Char → Bool
  | [], _ => true
  | _ :: _, [] => false
  | a :: as, b :: bs => a = b && listStarts as bs

/-- Is `pat` a contiguous sublist? (Python `in` on strings.) -/
def listHasSub (pat : List Char) : List Char → Bool
  | [] => listStarts pat []
  | b :: bs => listStarts pat (b :: bs) || listHasSub pat bs

/-- Python `pat in s` for strings. -/
def strHasSub (s pat : String) : Bool :=
  listHasSub pat.data s.data

/-- ASCII lower-casing of one character (enough for the source's uses). -/
def lowerChar (c : Char) : Char :=
  if 'A' ≤ c ∧ c ≤ 'Z' then Char.ofNat (c.toNat + 32) else c

/-- Python `str.lower` (ASCII part; the source compares ASCII field names and
engine messages). -/
def lowerStr (s : String) : String :=
  ⟨s.data.map lowerChar⟩

/-- Python `str.replace` on char lists: replace non-overlapping occurrences
left to right.  The fuel (one unit per consumed character) makes the
recursion structural; `fuel = s.length` always suffices because every step
consumes at least one character. -/
def replChars (pat rep : List Char) : Nat → List Char → List Char
  | _, [] => []
  | 0, s => s
  | fuel + 1, c :: cs =>
    if pat ≠ [] ∧ listStarts pat (c :: cs) then
      rep ++ replChars pat rep fuel (cs.drop (pat.length - 1))
    else
      c :: replChars pat rep fuel cs

/-- Python `str.replace`. -/
def strReplace (s pat rep : String) : String :=
  ⟨replChars pat.data rep.data s.data.length s.data⟩

/-- Python `str.strip` (trim whitespace at both ends). -/
def stripStr (s : String) : String :=
  ⟨((s.data.dropWhile Char.isWhitespace).reverse.dropWhile Char.isWhitespace).reverse⟩

/-- Split a char list at newline characters (Python `str.splitlines` for the
newline-only strings produced by the normalizer). -/
def splitNlChars (s : List Char) : List (List Char) :=
  match s with
  | [] => [[]]
  | c :: cs =>
    let rest := splitNlChars cs
    if c = '\n' then [] :: rest
    else
      match rest with
      | [] => [[c]]
      | r :: rs => (c :: r) :: rs

/-- Split a string at newline characters. -/
def splitNl (s : String) : List String :=
  (splitNlChars s.data).map fun cs => ⟨cs⟩

/-- Collapse runs of space characters to one space
(the source's `re.sub(r' +', ' ', ...)`). -/
def collapseSpAux : Bool → List Char → List Char
  | _, [] => []
  | prevSp, c :: cs =>
    if c = ' ' then
      if prevSp then collapseSpAux true cs else ' ' :: collapseSpAux true cs
    else c :: collapseSpAux false cs

/-- Collapse runs of spaces in a string. -/
def collapseSp (s : String) : String :=
  ⟨collapseSpAux false s.data⟩

/-- Last index at which `c` occurs. -/
def rfindIdx (c : Char) (cs : List Char) : Option Nat :=
  match cs with
  | [] => none
  | a :: as =>
    match rfindIdx c as with
    | some i => some (i + 1)
    | none => if a = c then some 0 else none

/-- The root part of Python `os.path.splitext`: drop the extension of the last
path component (a dot-run at the start of the component is not an extension). -/
def splitextRoot (p : String) : String :=
  let cs := p.data
  let fi := match rfindIdx '/' cs with | some i => i + 1 | none => 0
  match rfindIdx '.' cs with
  | some si =>
    if fi < si ∧ ¬(((cs.drop fi).take (si - fi)).all (· = '.')) then ⟨cs.take si⟩ else p
  | none => p

/-- Fixed-size batches: `chunksAux n fuel xs` cuts `xs` into pieces of `n`
(the source's `for i in range(0, len(card_ids), batch_size)`). -/
def chunksAux (n : Nat) : Nat → List α → List (List α)
  | 0, _ => []
  | _, [] => []
  | fuel + 1, xs => xs.take n :: chunksAux n fuel (xs.drop n)

/-- Cut a list into batches of `n` elements (last batch may be shorter). -/
def chunks (n : Nat) (xs : List α) : List (List α) :=
  chunksAux n xs.length xs

/-! ## Rich-text normalizer (`parse_html_content`)

The HTML tree produced by the external parser (BeautifulSoup with
`html.parser`) is modelled as a list of nodes; the parser itself is a
parameter `parse : String → Option (List HNode)`, `none` standing for the
source's `except` branch (parse failure / library missing). -/

/-- One node of the parsed markup tree: a text node or an element with a
tag, attributes and children. -/
inductive HNode where
  | text (s : String)
  | elem (tag : String) (attrs : List (String × String)) (children : List HNode)
deriving Repr

/-- Attribute lookup, first match (Python `tag.get(name)`). -/
def attrGet (attrs : List (String × String)) (name : String) : Option String :=
  match attrs with
  | [] => none
  | (k, v) :: rest => if k = name then some v else attrGet rest name

/-- All `src` attributes of `img` elements in document order, skipping missing
or empty `src` (the source's `soup.find_all('img')` loop with `if src:`). -/
def listImgs : List HNode → List String
  | [] => []
  | HNode.text _ :: rest => listImgs rest
  | HNode.elem tag attrs ch :: rest =>
    (if tag = "img" then
      (match attrGet attrs "src" with
       | some s => if s ≠ "" then [s] else []
       | none => [])
     else []) ++ listImgs ch ++ listImgs rest

/-- Remove every `img` element with its subtree (the `img_tag.decompose()`
calls). -/
def stripImgs : List HNode → List HNode
  | [] => []
  | HNode.text s :: rest => HNode.text s :: stripImgs rest
  | HNode.elem tag attrs ch :: rest =>
    if tag = "img" then stripImgs rest
    else HNode.elem tag attrs (stripImgs ch) :: stripImgs rest

/-- Replace every `br` element by the placeholder text node (the source inserts
`"||NEWLINE||"` after the `br` and decomposes the `br`, dropping its subtree). -/
def replaceBrs : List HNode → List HNode
  | [] => []
  | HNode.text s :: rest => HNode.text s :: replaceBrs rest
  | HNode.elem tag attrs ch :: rest =>
    if tag = "br" then HNode.text "||NEWLINE||" :: replaceBrs rest
    else HNode.elem tag attrs (replaceBrs ch) :: replaceBrs rest

/-- All text-node strings in document order
(BeautifulSoup `soup._all_strings`). -/
def listStrings : List HNode → List String
  | [] => []
  | HNode.text s :: rest => s :: listStrings rest
  | HNode.elem _ _ ch :: rest => listStrings ch ++ listStrings rest

/-- BeautifulSoup `get_text(separator='\n', strip=True)`: strip each string,
drop the ones that become empty, join with newlines. -/
def getTextStripped (nodes : List HNode) : String :=
  String.intercalate "\n" (((listStrings nodes).map stripStr).filter (· ≠ ""))

/-- Embedding of `parse_html_content` (src/ANKI_to_PDF.py lines 114-139).
Returns `((plain_text, image_filenames), warned)`; `warned` records the
WARN printed when the markup cannot be parsed. -/
def parse_html_content (parse : String → Option (List HNode)) (html_text : String) :
    (String × List String) × Bool :=
  if html_text = "" then (("", []), false)
  else
    match parse html_text with
    | none => ((html_text, []), true)
    | some soup =>
      let img_filenames := listImgs soup
      let soup := stripImgs soup
      let soup := replaceBrs soup
      let text_content := getTextStripped soup
      let text_content := strReplace text_content "||NEWLINE||" "\n"
      let cleaned_text :=
        String.intercalate "\n" (((splitNl text_content).map stripStr).filter (· ≠ ""))
      let cleaned_text := collapseSp cleaned_text
      ((cleaned_text, img_filenames), false)

/-! ## Field resolver -/

/-- The source's `QUESTION_FIELD_NAMES`. -/
def QUESTION_FIELD_NAMES : List String :=
  ["front", "question", "otázka", "q", "term", "text"]

/-- The source's `ANSWER_FIELD_NAMES`. -/
def ANSWER_FIELD_NAMES : List String :=
  ["back", "answer", "odpověď", "a", "definition", "back extra"]

/-- Insert into an association list, overwriting an existing binding of the
key (Python dict assignment). -/
def dictInsert (m : List (String × String)) (k v : String) : List (String × String) :=
  match m with
  | [] => [(k, v)]
  | (k', v') :: rest => if k' = k then (k, v) :: rest else (k', v') :: dictInsert rest k v

/-- The source's `{name.lower(): name for name in fields_data.keys()}`:
a later field whose lower-cased name collides overwrites the earlier one. -/
def lowerFieldMap (fields : List (String × String)) : List (String × String) :=
  fields.foldl (fun m p => dictInsert m (lowerStr p.1) p.1) []

/-- String-keyed association lookup, first match (Python dict access on a
dict with unique keys). -/
def slookup (m : List (String × String)) (k : String) : Option String :=
  match m with
  | [] => none
  | (k', v) :: rest => if k' = k then some v else slookup rest k

/-- First candidate name (in priority order) present in the lower-cased field
map; returns the original-cased field name (the source's role-resolution
loops over `QUESTION_FIELD_NAMES` / `ANSWER_FIELD_NAMES`). -/
def roleField (candidates : List String) (fields : List (String × String)) : Option String :=
  match candidates with
  | [] => none
  | name :: rest =>
    match slookup (lowerFieldMap fields) name with
    | some orig => some orig
    | none => roleField rest fields

/-! ## Note extractor (`extract_anki_data_connect`) -/

/-- One item of a `cardsInfo` response: the owning note id (`'note'`, absent
or `0` is falsy in the source's `if not note_id` check), the field map
(field name → the field's `'value'` entry), the model name and the card id. -/
structure CardInfo where
  note : Option Nat
  fields : List (String × String)
  modelName : Option String
  cardId : Option Nat
deriving Repr, DecidableEq

/-- The per-note record the extractor builds (the dict stored in
`extracted_notes[note_id]`). -/
structure NoteRecord where
  note_id : Nat
  model_name : String
  q_text : String
  q_images : List String
  a_text : String
  a_images : List String
deriving Repr, DecidableEq

/-- The extractor's console diagnostics (WARN prints), one constructor per
print site. -/
inductive Diag where
  | batchFail (ids : List Nat)
  | missingData (cardId : Option Nat)
  | noRoles (noteId : Nat) (modelName : Option String) (fieldNames : List String)
deriving Repr, DecidableEq

/-- State threaded through the extraction loops: the insertion-ordered
`extracted_notes` dict (note id → record) and the diagnostics so far. -/
structure ExtractState where
  notes : List (Nat × NoteRecord)
  diags : List Diag
deriving Repr, DecidableEq

/-- Lookup in the `extracted_notes` dict. -/
def nlookup (m : List (Nat × NoteRecord)) (k : Nat) : Option NoteRecord :=
  match m with
  | [] => none
  | (k', v) :: rest => if k' = k then some v else nlookup rest k

/-- The note id of an item, `0` when absent (only used where presence is
known). -/
def noteIdOf (ci : CardInfo) : Nat :=
  ci.note.getD 0

/-- Build the `extracted_notes` entry from one item (the successful branch of
the per-card loop, lines 228-240 of the source): resolve both role field
names, read their values, normalize each with `parse_html_content`. -/
def buildRecord (parse : String → Option (List HNode)) (ci : CardInfo) : NoteRecord :=
  let q_field_name := (roleField QUESTION_FIELD_NAMES ci.fields).getD ""
  let a_field_name := (roleField ANSWER_FIELD_NAMES ci.fields).getD ""
  let q_html := (slookup ci.fields q_field_name).getD ""
  let a_html := (slookup ci.fields a_field_name).getD ""
  let q := (parse_html_content parse q_html).1
  let a := (parse_html_content parse a_html).1
  { note_id := noteIdOf ci
    model_name := ci.modelName.getD "Neznámý model"
    q_text := q.1
    q_images := q.2
    a_text := a.1
    a_images := a.2 }

/-- Process one item of a batch (the body of `for card_info in cards_info:`,
lines 210-243 of the source). -/
def processCard (parse : String → Option (List HNode)) (st : ExtractState)
    (ci : CardInfo) : ExtractState :=
  match ci.note with
  | none => { st with diags := st.diags ++ [Diag.missingData ci.cardId] }
  | some nid =>
    if nid = 0 ∨ ci.fields = [] then
      { st with diags := st.diags ++ [Diag.missingData ci.cardId] }
    else
      match nlookup st.notes nid with
      | some _ => st
      | none =>
        match roleField QUESTION_FIELD_NAMES ci.fields,
              roleField ANSWER_FIELD_NAMES ci.fields with
        | some _, some _ =>
          { st with notes := st.notes ++ [(nid, buildRecord parse ci)] }
        | _, _ =>
          { st with diags :=
              st.diags ++ [Diag.noRoles nid ci.modelName (ci.fields.map Prod.fst)] }

/-- Process one batch of card ids (lines 203-243): a `cardsInfo` call that
fails (`None`) or returns an empty/falsy list is skipped with a WARN. -/
def processBatch (parse : String → Option (List HNode))
    (cardsInfo : List Nat → Option (List CardInfo)) (st : ExtractState)
    (batch : List Nat) : ExtractState :=
  match cardsInfo batch with
  | none => { st with diags := st.diags ++ [Diag.batchFail batch] }
  | some [] => { st with diags := st.diags ++ [Diag.batchFail batch] }
  | some cis => cis.foldl (processCard parse) st

/-- Embedding of `extract_anki_data_connect` (lines 188-245).  `findCards` is
the `findCards` response (`none` = transport failure / API error) and
`cardsInfo` the `cardsInfo` responses per batch.  Returns `none` for the
source's `return None`, otherwise the record list (dict values in insertion
order) together with the diagnostics. -/
def extract_anki_data_connect (parse : String → Option (List HNode))
    (findCards : Option (List Nat))
    (cardsInfo : List Nat → Option (List CardInfo)) :
    Option (List NoteRecord × List Diag) :=
  match findCards with
  | none => none
  | some [] => some ([], [])
  | some ids =>
    let st := (chunks 100 ids).foldl (processBatch parse cardsInfo) ⟨[], []⟩
    some (st.notes.map Prod.snd, st.diags)

/-- An item the per-card loop records on first sight: note id present and
non-zero, fields non-empty, both roles resolvable. -/
def cardValid (ci : CardInfo) : Bool :=
  (match ci.note with | some n => n ≠ 0 | none => false) &&
  ci.fields ≠ [] &&
  (roleField QUESTION_FIELD_NAMES ci.fields).isSome &&
  (roleField ANSWER_FIELD_NAMES ci.fields).isSome

/-- The subsequence of items the per-card loop actually records, in order:
an item is kept iff it is recordable (`cardValid`: note id and fields
present, both roles resolve) and its identity has not been recorded by an
earlier kept item.  `seen` threads the identities recorded so far. -/
def recordables (seen : List Nat) : List CardInfo → List CardInfo
  | [] => []
  | ci :: rest =>
    if cardValid ci = true ∧ noteIdOf ci ∉ seen then
      ci :: recordables (seen ++ [noteIdOf ci]) rest
    else
      recordables seen rest

/-- The items one batch contributes to the per-card loop: the `cardsInfo`
response's list, or nothing when the response is `None` (a falsy `[]`
response is skipped by the source too, contributing no items either way). -/
def batchItems (cardsInfo : List Nat → Option (List CardInfo)) (b : List Nat) :
    List CardInfo :=
  (cardsInfo b).getD []

/-- Modelled from the spec: "Final output preserves first-seen order of
unique note identities" — the note identities of an item sequence in the
order each identity is first encountered. -/
def firstSeenIds (items : List CardInfo) : List Nat :=
  items.foldl
    (fun acc ci =>
      match ci.note with
      | some n => if n ∈ acc then acc else acc ++ [n]
      | none => acc) []

/-! ## Media resolver / cache (`get_media_data`) -/

/-- Binary media content (abstract bytes). -/
abbrev Bytes := List Nat

/-- The `IMAGE_CACHE` dict: media filename → bytes, in insertion order. -/
abbrev Cache := List (String × Bytes)

/-- Cache lookup (`filename in IMAGE_CACHE`). -/
def clookup (m : Cache) (k : String) : Option Bytes :=
  match m with
  | [] => none
  | (k', v) :: rest => if k' = k then some v else clookup rest k

/-- One `error_log` entry as formatted by `log_error`. -/
def mkEntry (note_id : Nat) (message : String) : String :=
  "note_id=" ++ toString note_id ++ ": " ++ message

/-- Result of one `get_media_data` call: the returned data, the cache
afterwards, how many remote fetches the call performed (0 or 1), and the
`error_log` entries it appended. -/
structure MediaResult where
  data : Option Bytes
  cache : Cache
  fetches : Nat
  logged : List String
deriving Repr, DecidableEq

/-- Embedding of `get_media_data` (lines 165-184).  `oracle` is the
`retrieveMediaFile` transport (`none` = failed request, and an empty string
is falsy for the source's `if result:`); `decode` the base64 decoder
(`Except.error` = `TypeError`/`ValueError`, carrying the exception text);
`compress` the Pillow recompressor when `quality` is not `None` (it already
returns its input unchanged on internal failure). -/
def get_media_data (oracle : String → Option String)
    (decode : String → Except String Bytes) (compress : Option (Bytes → Bytes))
    (filename : String) (note_id : Option Nat) (cache : Cache) : MediaResult :=
  match clookup cache filename with
  | some d => ⟨some d, cache, 0, []⟩
  | none =>
    match oracle filename with
    | some result =>
      if result = "" then ⟨none, cache, 1, []⟩
      else
        match decode result with
        | Except.ok data =>
          let data := match compress with | some f => f data | none => data
          ⟨some data, cache ++ [(filename, data)], 1, []⟩
        | Except.error e =>
          ⟨none, cache, 1,
            match note_id with
            | some nid =>
              [mkEntry nid ("obrázek '" ++ filename ++ "' - Chyba při dekódování base64: " ++ e)]
            | none => []⟩
    | none => ⟨none, cache, 1, []⟩

/-! ## Adaptive image placer (`ResizableImage.__init__`)

ReportLab page geometry, embedded over ℚ (`cm = 72 / 2.54` points). -/

/-- One centimetre in points. -/
def cmQ : ℚ := 3600 / 127

/-- A4 page width in points (`A4[0] = 210 mm`). -/
def A4w : ℚ := 75600 / 127

/-- A4 page height in points (`A4[1] = 297 mm`). -/
def A4ht : ℚ := 106920 / 127

/-- First clamp: width to `min(max_width, natural_width)`, height follows the
aspect ratio (lines 88-90). -/
def placeStage1 (natW natH maxW : ℚ) : ℚ × ℚ :=
  let drawWidth := min maxW natW
  (drawWidth, drawWidth * (natH / natW))

/-- Second clamp: when `max_height` is truthy and exceeded, set the height to
it and recompute the width from the aspect ratio (lines 91-93). -/
def placeStage2 (natW natH : ℚ) (maxH : Option ℚ) (p : ℚ × ℚ) : ℚ × ℚ :=
  match maxH with
  | some m => if m ≠ 0 ∧ m < p.2 then (m / (natH / natW), m) else p
  | none => p

/-- Third clamp: scale both dimensions down when the height exceeds 80% of the
A4 page height (lines 94-97). -/
def placeStage3 (p : ℚ × ℚ) : ℚ × ℚ :=
  if A4ht * (4 / 5) < p.2 then
    let scale_factor := (A4ht * (4 / 5)) / p.2
    (p.1 * scale_factor, p.2 * scale_factor)
  else p

/-- The full placement computation of `ResizableImage.__init__`
(lines 87-99): the three clamps in order, or the `(0,0)` sentinel when a
natural dimension is not positive. -/
def place (natW natH maxW : ℚ) (maxH : Option ℚ) : ℚ × ℚ :=
  if 0 < natW ∧ 0 < natH then
    placeStage3 (placeStage2 natW natH maxH (placeStage1 natW natH maxW))
  else (0, 0)

/-- A constructed `ResizableImage`: draw dimensions plus the `error_log`
entries appended while reading the natural size.  `getSize` is ReportLab's
`ImageReader(...).getSize()` (`Except.error` = the exception caught at
lines 81-86; dimensions then stay `(0, 0)`).  The assembler always passes
`err_log=error_log`, so the error branch logs. -/
def resizableImage (getSize : Bytes → Except String (ℚ × ℚ)) (img_data : Bytes)
    (max_width : ℚ) (max_height : Option ℚ) (note_id : Nat) (img_filename : String) :
    (ℚ × ℚ) × List String :=
  match getSize img_data with
  | Except.ok (w, h) => (place w h max_width max_height, [])
  | Except.error e =>
    ((0, 0),
      [mkEntry note_id ("obrázek '" ++ img_filename ++ "' - Nelze načíst rozměry: " ++ e)])

/-! ## Document assembler (`create_pdf_connect`) -/

/-- One story element handed to the layout collaborator. -/
inductive Block where
  | heading (text : String)
  | para (markup : String)
  | paraError (text : String)
  | image (w h : ℚ)
  | spacer (w h : ℚ)
  | pageBreak
deriving Repr, DecidableEq

/-- The source's XML escaping of a paragraph text (line 308/344): `&`, then
`<`, then `>`. -/
def escape_xml (s : String) : String :=
  strReplace (strReplace (strReplace s "&" "&amp;") "<" "&lt;") ">" "&gt;"

/-- The markup string the source hands to `Paragraph` for a non-empty field
text: newlines become `<br/>` (line 305/341), then the XML metacharacters
are escaped (line 308/344) — in that order. -/
def paragraph_markup (t : String) : String :=
  escape_xml (strReplace t "\n" "<br/>")

/-- Mutable state of one `create_pdf_connect` run: the global `IMAGE_CACHE`
and `error_log`. -/
structure AsmState where
  cache : Cache
  errLog : List String
deriving Repr, DecidableEq

/-- The text blocks for one role's field text (lines 304-315 / 340-351):
a `Paragraph` with the escaped markup when the text is non-empty and the
layout collaborator accepts it (`paraAccepts` models the caught
`ValueError`), otherwise the corresponding error-styled placeholder. -/
def textBlocks (paraAccepts : String → Bool) (t emptyMsg failMsg : String) : List Block :=
  if t = "" then [Block.paraError emptyMsg]
  else
    let m := paragraph_markup t
    if paraAccepts m then [Block.para m] else [Block.paraError failMsg]

/-- The blocks for one image reference (the bodies of the two image loops,
lines 318-334 / 354-370), together with the updated state. -/
def imageBlocks (oracle : String → Option String) (decode : String → Except String Bytes)
    (compress : Option (Bytes → Bytes)) (getSize : Bytes → Except String (ℚ × ℚ))
    (availW : ℚ) (nid : Nat) (f : String) (st : AsmState) : List Block × AsmState :=
  let r := get_media_data oracle decode compress f (some nid) st.cache
  let st : AsmState := { cache := r.cache, errLog := st.errLog ++ r.logged }
  match r.data with
  | some data =>
    let ri := resizableImage getSize data (availW * (9 / 10)) none nid f
    let st := { st with errLog := st.errLog ++ ri.2 }
    if 0 < ri.1.1 then
      ([Block.image ri.1.1 ri.1.2, Block.spacer 1 (cmQ * (1 / 5))], st)
    else
      ([Block.paraError ("[Obrázek '" ++ f ++ "' nelze zobrazit]")], st)
  | none =>
    ([Block.paraError ("[Obrázek '" ++ f ++ "' se nepodařilo načíst]")],
     { st with errLog := st.errLog ++
        [mkEntry nid ("obrázek '" ++ f ++ "' - Nepodařilo se načíst data přes AnkiConnect")] })

/-- Fold `imageBlocks` over a record's image list. -/
def imagesFold (oracle : String → Option String) (decode : String → Except String Bytes)
    (compress : Option (Bytes → Bytes)) (getSize : Bytes → Except String (ℚ × ℚ))
    (availW : ℚ) (nid : Nat) (files : List String) (st : AsmState) :
    List Block × AsmState :=
  files.foldl
    (fun acc f =>
      let r := imageBlocks oracle decode compress getSize availW nid f acc.2
      (acc.1 ++ r.1, r.2))
    ([], st)

/-- All story blocks of one record (one iteration of the `for i, card` loop,
without the trailing page break). -/
def cardBlocks (oracle : String → Option String) (decode : String → Except String Bytes)
    (compress : Option (Bytes → Bytes)) (getSize : Bytes → Except String (ℚ × ℚ))
    (paraAccepts : String → Bool) (availW : ℚ) (card : NoteRecord) (st : AsmState) :
    List Block × AsmState :=
  let q := textBlocks paraAccepts card.q_text "[Prázdná otázka]" "[Chyba formátování textu otázky]"
  let qi := imagesFold oracle decode compress getSize availW card.note_id card.q_images st
  let a := textBlocks paraAccepts card.a_text "[Prázdná odpověď]" "[Chyba formátování textu odpovědi]"
  let ai := imagesFold oracle decode compress getSize availW card.note_id card.a_images qi.2
  (Block.heading "Otázka:" :: q ++ qi.1 ++ [Block.spacer 1 (cmQ * (3 / 5)), Block.heading "Odpověď:"]
    ++ a ++ ai.1, ai.2)

/-- `doc.width` of the `SimpleDocTemplate`: A4 width minus the two
1.5 cm margins. -/
def docWidth : ℚ := A4w - cmQ * (3 / 2) - cmQ * (3 / 2)

/-- Content of the error-report file (lines 382-385): a header line, then
each `error_log` entry on its own line. -/
def errFileContent (log : List String) : String :=
  "Chybové hlášky při generování PDF\n" ++ String.join (log.map (· ++ "\n"))

/-- Result of one `create_pdf_connect` run: the story handed to
`doc.build`, the global state afterwards, and the error-report file
(path and content) when one is written. -/
structure PdfResult where
  story : List Block
  cache : Cache
  errLog : List String
  errFile : Option (String × String)
deriving Repr, DecidableEq

/-- Embedding of `create_pdf_connect` (lines 247-394) up to the OCR call:
font registration and `doc.build` are I/O against collaborators and carry no
data dependencies; the story construction, global-state updates and the
error-report write are translated.  Returns `none` for the early return on
empty input (line 263-265).  `cache0`/`errLog0` are the global
`IMAGE_CACHE`/`error_log` at entry. -/
def create_pdf_connect (oracle : String → Option String)
    (decode : String → Except String Bytes) (compress : Option (Bytes → Bytes))
    (getSize : Bytes → Except String (ℚ × ℚ)) (paraAccepts : String → Bool)
    (cards_data : List NoteRecord) (output_pdf_path : String)
    (cache0 : Cache) (errLog0 : List String) : Option PdfResult :=
  if cards_data = [] then none
  else
    let availW := docWidth
    let r := cards_data.enum.foldl
      (fun (acc : List Block × AsmState) ic =>
        let cb := cardBlocks oracle decode compress getSize paraAccepts availW ic.2 acc.2
        let sep := if ic.1 < cards_data.length - 1 then [Block.pageBreak] else []
        (acc.1 ++ cb.1 ++ sep, cb.2))
      ([], ⟨cache0, errLog0⟩)
    let errFile :=
      if r.2.errLog = [] then none
      else some (splitextRoot output_pdf_path ++ "_errors.txt", errFileContent r.2.errLog)
    some { story := r.1, cache := r.2.cache, errLog := r.2.errLog, errFile := errFile }

/-! ## Recognition post-processor (`apply_ocr_to_pdf`) -/

/-- One engine call's outcome: a recognized document, or a failure message
together with whatever partial temporary output the engine left behind. -/
inductive OcrOutcome where
  | ok (content : Nat)
  | fail (msg : String) (partialTmp : Option Nat)
deriving Repr, DecidableEq

/-- The two disk slots the post-processor touches: the assembled document at
`pdf_path` and the temporary path `pdf_path + ".ocr.tmp.pdf"`. -/
structure OcrFs where
  pdf : Nat
  tmp : Option Nat
deriving Repr, DecidableEq

/-- Result of `apply_ocr_to_pdf`: disk state afterwards, the `force_ocr`
flag of each engine call in order, whether OCR ultimately succeeded, and the
ERROR messages reported. -/
structure OcrRun where
  fs : OcrFs
  calls : List Bool
  ok : Bool
  reported : List String
deriving Repr, DecidableEq

/-- The source's retry trigger (line 439):
`"page already has text" in str(e).lower()`. -/
def alreadyHasTextMsg (msg : String) : Bool :=
  strHasSub (lowerStr msg) "page already has text"

/-- Embedding of `apply_ocr_to_pdf` (lines 397-459) past the import guard:
`engine i f` is the i-th `ocrmypdf.ocr` call with `force_ocr = f`; on success
the output at the temporary path replaces the original (`os.replace`,
lines 435/451); on final failure the message is reported and the temporary
file, if any, is removed (lines 458-459), leaving the original untouched. -/
def apply_ocr_to_pdf (engine : Nat → Bool → OcrOutcome) (force : Bool)
    (fs : OcrFs) : OcrRun :=
  match engine 0 force with
  | OcrOutcome.ok c => ⟨⟨c, none⟩, [force], true, []⟩
  | OcrOutcome.fail msg _ =>
    if alreadyHasTextMsg msg ∧ force = false then
      match engine 1 true with
      | OcrOutcome.ok c => ⟨⟨c, none⟩, [force, true], true, []⟩
      | OcrOutcome.fail msg2 _ =>
        ⟨⟨fs.pdf, none⟩, [force, true], false,
          ["OCR s --force-ocr selhalo: " ++ msg2]⟩
    else
      ⟨⟨fs.pdf, none⟩, [force], false, ["Chyba při provádění OCR: " ++ msg]⟩

/-! ## Theorems for the claims -/

/-- C2: the source inserts `<br/>` for each newline and only then escapes
`<`, `>`, `&`, so the inserted line-break markers themselves are escaped to
the inert text `&lt;br/&gt;`: the markup handed to the layout collaborator
for the text `"a\nb"` contains no `<br/>` element at all, so the inserted
line breaks are not effective line breaks (the escaping of the original
text's metacharacters itself is correct, as the third conjunct shows). -/
theorem paragraph_markup_escapes_breaks :
    paragraph_markup "a\nb" = "a&lt;br/&gt;b" ∧
    strHasSub (paragraph_markup "a\nb") "<br/>" = false ∧
    paragraph_markup "x<y&z>" = "x&lt;y&amp;z&gt;" := by
  refine ⟨?_, ?_, ?_⟩ <;> rfl

/-- C8: the rich-text normalizer is total (a Lean function) with the defined
fallbacks: empty input yields `("", [])` without a warning, and input whose
markup the parser cannot parse yields the raw input verbatim with an empty
media list and a warning. -/
theorem parse_html_content_total_fallbacks (parse : String → Option (List HNode)) :
    parse_html_content parse "" = (("", []), false) ∧
    ∀ s, s ≠ "" → parse s = none → parse_html_content parse s = ((s, []), true) := by
  constructor
  · rfl
  · intro s hs hp
    unfold parse_html_content
    rw [if_neg hs, hp]

/-- Witness for C8 at a concrete parser and inputs. -/
theorem parse_html_content_total_fallbacks_witness :
    parse_html_content (fun _ => none) "" = (("", []), false) ∧
    parse_html_content (fun _ => none) "<x" = (("<x", []), true) :=
  ⟨(parse_html_content_total_fallbacks (fun _ => none)).1,
   (parse_html_content_total_fallbacks (fun _ => none)).2 "<x" (by decide) rfl⟩

/-- C6: the post-processor makes a second engine call, with force enabled,
exactly when the first call fails with the engine's already-contains-text
message and `force` was not already set; it never calls the engine more than
twice, and every ultimately failing run reports an error message instead of
failing the overall run (the embedding is a total function). -/
theorem apply_ocr_retry_policy (engine : Nat → Bool → OcrOutcome) (force : Bool)
    (fs : OcrFs) :
    ((apply_ocr_to_pdf engine force fs).calls = [force] ∨
      (apply_ocr_to_pdf engine force fs).calls = [force, true]) ∧
    ((apply_ocr_to_pdf engine force fs).calls = [force, true] ↔
      ∃ m t, engine 0 force = OcrOutcome.fail m t ∧ alreadyHasTextMsg m = true ∧
        force = false) ∧
    ((apply_ocr_to_pdf engine force fs).ok = false →
      (apply_ocr_to_pdf engine force fs).reported ≠ []) := by
  unfold apply_ocr_to_pdf
  rcases h0 : engine 0 force with c | ⟨m, t⟩
  · dsimp only
    simp [h0]
  · dsimp only
    by_cases hc : alreadyHasTextMsg m ∧ force = false
    · rcases h1 : engine 1 true with c1 | ⟨m1, t1⟩ <;>
        simp [h0, h1, hc, hc.1, hc.2]
    · rw [if_neg hc]
      refine ⟨Or.inl rfl, ⟨fun h => ?_, fun h => ?_⟩, fun _ => by simp⟩
      · exact absurd (congrArg List.length h) (by simp)
      · obtain ⟨m', t', heq, ha, hf⟩ := h
        injection heq with h1 h2
        exact absurd ⟨h1 ▸ ha, hf⟩ hc

/-- Witness for C6: a first failure carrying the already-has-text message
with `force` unset makes exactly the two calls `[false, true]`. -/
theorem apply_ocr_retry_policy_witness :
    (apply_ocr_to_pdf (fun _ _ => OcrOutcome.fail "ERROR: Page already has text" none)
      false ⟨42, none⟩).calls = [false, true] :=
  ((apply_ocr_retry_policy
      (fun _ _ => OcrOutcome.fail "ERROR: Page already has text" none)
      false ⟨42, none⟩).2.1).2
    ⟨"ERROR: Page already has text", none, rfl, by decide, rfl⟩

/-- C7: the post-processor never leaves the temporary artifact behind, leaves
the original document untouched whenever recognition ultimately fails
(including a failed retry), and changes it only to a document produced by a
successful engine call. -/
theorem apply_ocr_atomic (engine : Nat → Bool → OcrOutcome) (force : Bool)
    (fs : OcrFs) :
    (apply_ocr_to_pdf engine force fs).fs.tmp = none ∧
    ((apply_ocr_to_pdf engine force fs).ok = false →
      (apply_ocr_to_pdf engine force fs).fs.pdf = fs.pdf) ∧
    ((apply_ocr_to_pdf engine force fs).ok = true →
      engine 0 force = OcrOutcome.ok (apply_ocr_to_pdf engine force fs).fs.pdf ∨
      engine 1 true = OcrOutcome.ok (apply_ocr_to_pdf engine force fs).fs.pdf) := by
  unfold apply_ocr_to_pdf
  rcases h0 : engine 0 force with c | ⟨m, t⟩
  · dsimp only
    simp [h0]
  · dsimp only
    by_cases hc : alreadyHasTextMsg m ∧ force = false
    · rcases h1 : engine 1 true with c1 | ⟨m1, t1⟩ <;> simp [h0, h1, hc]
    · simp [h0, hc]

/-- Witness for C7: a run whose single attempt fails (with a partial
temporary output) leaves the original content `42` on disk and no
temporary file. -/
theorem apply_ocr_atomic_witness :
    (apply_ocr_to_pdf (fun _ _ => OcrOutcome.fail "boom" (some 7))
        false ⟨42, none⟩).fs.pdf = 42 ∧
    (apply_ocr_to_pdf (fun _ _ => OcrOutcome.fail "boom" (some 7))
        false ⟨42, none⟩).fs.tmp = none :=
  ⟨(apply_ocr_atomic (fun _ _ => OcrOutcome.fail "boom" (some 7))
      false ⟨42, none⟩).2.1 (by decide),
   (apply_ocr_atomic (fun _ _ => OcrOutcome.fail "boom" (some 7))
      false ⟨42, none⟩).1⟩

/-- C5: the extractor returns `none` (Error) when the initial `findCards`
enumeration fails, `([], [])` when the collection is valid but empty, and a
batch whose `cardsInfo` fetch fails (or comes back falsy) only appends a
diagnostic and leaves the state otherwise unchanged, while the run is the
fold over all batches — later batches are still processed. -/
theorem extract_error_handling (parse : String → Option (List HNode))
    (cardsInfo : List Nat → Option (List CardInfo)) :
    extract_anki_data_connect parse none cardsInfo = none ∧
    extract_anki_data_connect parse (some []) cardsInfo = some ([], []) ∧
    (∀ (st : ExtractState) (b : List Nat),
      cardsInfo b = none ∨ cardsInfo b = some [] →
      processBatch parse cardsInfo st b =
        { st with diags := st.diags ++ [Diag.batchFail b] }) ∧
    (∀ ids : List Nat, ids ≠ [] →
      extract_anki_data_connect parse (some ids) cardsInfo =
        some
          (((chunks 100 ids).foldl (processBatch parse cardsInfo) ⟨[], []⟩).notes.map
            Prod.snd,
           ((chunks 100 ids).foldl (processBatch parse cardsInfo) ⟨[], []⟩).diags)) := by
  refine ⟨rfl, rfl, ?_, ?_⟩
  · intro st b h
    rcases h with h | h <;> simp [processBatch, h]
  · intro ids hids
    cases ids with
    | nil => exact absurd rfl hids
    | cons a as => rfl

/-- Witness for C5: a failing batch at a concrete state, and a concrete
non-empty id list. -/
theorem extract_error_handling_witness :
    processBatch (fun _ => none) (fun _ => none) ⟨[], []⟩ [1] =
      ⟨[], [Diag.batchFail [1]]⟩ ∧
    extract_anki_data_connect (fun _ => none) (some [5]) (fun _ => none) =
      some
        (((chunks 100 [5]).foldl (processBatch (fun _ => none) (fun _ => none))
            ⟨[], []⟩).notes.map Prod.snd,
         ((chunks 100 [5]).foldl (processBatch (fun _ => none) (fun _ => none))
            ⟨[], []⟩).diags) :=
  ⟨(extract_error_handling (fun _ => none) (fun _ => none)).2.2.1 ⟨[], []⟩ [1]
      (Or.inl rfl),
   (extract_error_handling (fun _ => none) (fun _ => none)).2.2.2 [5] (by decide)⟩

/-- Association lookup after appending a fresh key. -/
theorem clookup_append_self (m : Cache) (k : String) (v : Bytes)
    (h : clookup m k = none) : clookup (m ++ [(k, v)]) k = some v := by
  induction m with
  | nil => simp [clookup]
  | cons p rest ih =>
    by_cases hk : p.1 = k
    · simp [clookup, hk] at h
    · simp only [clookup, List.cons_append] at h ⊢
      rw [if_neg hk] at h ⊢
      exact ih h

/-- C4 counterexample: when the remote fetch for an identifier fails, nothing
is cached, so two calls to the media resolver for that identifier perform two
remote fetches, not one — the claim's unconditional "exactly one remote
fetch" is false. -/
theorem get_media_data_two_fetches_cex :
    (get_media_data (fun _ => none) (fun _ => Except.ok []) none "a.png" (some 1)
        []).fetches +
      (get_media_data (fun _ => none) (fun _ => Except.ok []) none "a.png" (some 1)
        (get_media_data (fun _ => none) (fun _ => Except.ok []) none "a.png" (some 1)
          []).cache).fetches = 2 ∧
    ¬((get_media_data (fun _ => none) (fun _ => Except.ok []) none "a.png" (some 1)
        []).fetches +
      (get_media_data (fun _ => none) (fun _ => Except.ok []) none "a.png" (some 1)
        (get_media_data (fun _ => none) (fun _ => Except.ok []) none "a.png" (some 1)
          []).cache).fetches = 1) := by
  refine ⟨rfl, by decide⟩

/-- C4 amended: provided the first call's remote fetch succeeds (a non-empty
payload that decodes), the first call performs the one remote fetch and
caches the (possibly recompressed) bytes, and any subsequent call for the
same identifier returns those cached bytes with no remote call and leaves
the cache unchanged. -/
theorem get_media_data_cache_amended (oracle : String → Option String)
    (decode : String → Except String Bytes) (compress : Option (Bytes → Bytes))
    (filename : String) (nid1 nid2 : Option Nat) (cache : Cache)
    (hmiss : clookup cache filename = none)
    (r : String) (hr : oracle filename = some r) (hne : r ≠ "")
    (d : Bytes) (hd : decode r = Except.ok d) :
    (get_media_data oracle decode compress filename nid1 cache).fetches = 1 ∧
    (get_media_data oracle decode compress filename nid1 cache).data.isSome = true ∧
    (get_media_data oracle decode compress filename nid2
        (get_media_data oracle decode compress filename nid1 cache).cache).fetches = 0 ∧
    (get_media_data oracle decode compress filename nid2
        (get_media_data oracle decode compress filename nid1 cache).cache).data =
      (get_media_data oracle decode compress filename nid1 cache).data ∧
    (get_media_data oracle decode compress filename nid2
        (get_media_data oracle decode compress filename nid1 cache).cache).cache =
      (get_media_data oracle decode compress filename nid1 cache).cache := by
  rcases compress with _ | f
  · have h1 : get_media_data oracle decode none filename nid1 cache =
        ⟨some d, cache ++ [(filename, d)], 1, []⟩ := by
      unfold get_media_data
      rw [hmiss, hr]
      dsimp only
      rw [if_neg hne, hd]
    have h3 : get_media_data oracle decode none filename nid2
        (cache ++ [(filename, d)]) = ⟨some d, cache ++ [(filename, d)], 0, []⟩ := by
      unfold get_media_data
      rw [clookup_append_self cache filename d hmiss]
    rw [h1]
    dsimp only
    rw [h3]
    exact ⟨rfl, rfl, rfl, rfl, rfl⟩
  · have h1 : get_media_data oracle decode (some f) filename nid1 cache =
        ⟨some (f d), cache ++ [(filename, f d)], 1, []⟩ := by
      unfold get_media_data
      rw [hmiss, hr]
      dsimp only
      rw [if_neg hne, hd]
    have h3 : get_media_data oracle decode (some f) filename nid2
        (cache ++ [(filename, f d)]) = ⟨some (f d), cache ++ [(filename, f d)], 0, []⟩ := by
      unfold get_media_data
      rw [clookup_append_self cache filename (f d) hmiss]
    rw [h1]
    dsimp only
    rw [h3]
    exact ⟨rfl, rfl, rfl, rfl, rfl⟩

/-- Witness for C4's amended theorem at a concrete oracle and cache. -/
theorem get_media_data_cache_amended_witness :
    (get_media_data (fun _ => some "Qg==") (fun _ => Except.ok [66]) none "b.png"
        (some 3) []).fetches = 1 ∧
    (get_media_data (fun _ => some "Qg==") (fun _ => Except.ok [66]) none "b.png"
        (some 3) []).data.isSome = true ∧
    (get_media_data (fun _ => some "Qg==") (fun _ => Except.ok [66]) none "b.png"
        (some 3)
        (get_media_data (fun _ => some "Qg==") (fun _ => Except.ok [66]) none "b.png"
          (some 3) []).cache).fetches = 0 ∧
    (get_media_data (fun _ => some "Qg==") (fun _ => Except.ok [66]) none "b.png"
        (some 3)
        (get_media_data (fun _ => some "Qg==") (fun _ => Except.ok [66]) none "b.png"
          (some 3) []).cache).data =
      (get_media_data (fun _ => some "Qg==") (fun _ => Except.ok [66]) none "b.png"
        (some 3) []).data ∧
    (get_media_data (fun _ => some "Qg==") (fun _ => Except.ok [66]) none "b.png"
        (some 3)
        (get_media_data (fun _ => some "Qg==") (fun _ => Except.ok [66]) none "b.png"
          (some 3) []).cache).cache =
      (get_media_data (fun _ => some "Qg==") (fun _ => Except.ok [66]) none "b.png"
        (some 3) []).cache :=
  get_media_data_cache_amended (fun _ => some "Qg==") (fun _ => Except.ok [66]) none
    "b.png" (some 3) (some 3) [] rfl "Qg==" rfl (by decide) [66] rfl

/-- C10: an item with a present, non-zero note id and non-empty fields whose
question/answer role resolution fails leaves `extracted_notes` unchanged (the
identity is not recorded as seen) and appends exactly one diagnostic of its
own; consequently a later item with the same note identity whose roles do
resolve is processed again and produces the note's record. -/
theorem processCard_failed_roles (parse : String → Option (List HNode))
    (st : ExtractState) (ci : CardInfo) (nid : Nat)
    (hn : ci.note = some nid) (h0 : nid ≠ 0) (hf : ci.fields ≠ [])
    (hseen : nlookup st.notes nid = none)
    (hroles : roleField QUESTION_FIELD_NAMES ci.fields = none ∨
      roleField ANSWER_FIELD_NAMES ci.fields = none) :
    processCard parse st ci =
      { st with diags :=
          st.diags ++ [Diag.noRoles nid ci.modelName (ci.fields.map Prod.fst)] } ∧
    (∀ cj : CardInfo, cj.note = some nid → cardValid cj = true →
      (processCard parse (processCard parse st ci) cj).notes =
        st.notes ++ [(nid, buildRecord parse cj)]) := by
  have hstep : processCard parse st ci =
      { st with diags :=
          st.diags ++ [Diag.noRoles nid ci.modelName (ci.fields.map Prod.fst)] } := by
    unfold processCard
    rw [hn]
    dsimp only
    rw [if_neg (by simp [h0, hf]), hseen]
    rcases hroles with h | h
    · rw [h]
    · rw [h]
      cases roleField QUESTION_FIELD_NAMES ci.fields <;> rfl
  refine ⟨hstep, fun cj hjn hjv => ?_⟩
  rw [hstep]
  simp only [cardValid, Bool.and_eq_true, decide_eq_true_eq] at hjv
  obtain ⟨⟨⟨hj0, hjf⟩, hjq⟩, hja⟩ := hjv
  rw [hjn] at hj0
  have hj0' : nid ≠ 0 := by simpa using hj0
  obtain ⟨qn, hqn⟩ := Option.isSome_iff_exists.mp hjq
  obtain ⟨an, han⟩ := Option.isSome_iff_exists.mp hja
  unfold processCard
  rw [hjn]
  dsimp only
  rw [if_neg (by simp [hj0', hjf]), hseen, hqn, han]

/-- Witness for C10: the first item for note 1 has no resolvable roles; the
later item with resolvable roles produces note 1's record. -/
theorem processCard_failed_roles_witness :
    processCard (fun _ => none) ⟨[], []⟩ ⟨some 1, [("jiné", "x")], some "M1", some 11⟩ =
      ⟨[], [Diag.noRoles 1 (some "M1") ["jiné"]]⟩ ∧
    (processCard (fun _ => none)
        (processCard (fun _ => none) ⟨[], []⟩
          ⟨some 1, [("jiné", "x")], some "M1", some 11⟩)
        ⟨some 1, [("Front", "q1"), ("Back", "a1")], some "M1", some 13⟩).notes =
      [(1, buildRecord (fun _ => none)
        ⟨some 1, [("Front", "q1"), ("Back", "a1")], some "M1", some 13⟩)] :=
  ⟨(processCard_failed_roles (fun _ => none) ⟨[], []⟩
      ⟨some 1, [("jiné", "x")], some "M1", some 11⟩ 1 rfl (by decide) (by decide)
      rfl (Or.inl (by decide))).1,
   (processCard_failed_roles (fun _ => none) ⟨[], []⟩
      ⟨some 1, [("jiné", "x")], some "M1", some 11⟩ 1 rfl (by decide) (by decide)
      rfl (Or.inl (by decide))).2
     ⟨some 1, [("Front", "q1"), ("Back", "a1")], some "M1", some 13⟩ rfl (by decide)⟩

/-- C3: the placement computation returns the `(0,0)` sentinel exactly when a
natural dimension is not positive; for positive natural dimensions and a
positive width bound it is the three clamps applied in the stated order
(width-first, then explicit max-height, then the 80%-of-page-height
ceiling), the result preserves the aspect ratio exactly
(`h * natural_width = w * natural_height`), the final width never exceeds
`max_width`, and each later clamp only shrinks (componentwise) the result of
the earlier ones. -/
theorem place_clamp_spec :
    (∀ (natW natH maxW : ℚ) (maxH : Option ℚ),
      natW ≤ 0 ∨ natH ≤ 0 → place natW natH maxW maxH = (0, 0)) ∧
    (∀ (natW natH maxW : ℚ) (maxH : Option ℚ),
      0 < natW → 0 < natH → 0 < maxW →
      place natW natH maxW maxH =
        placeStage3 (placeStage2 natW natH maxH (placeStage1 natW natH maxW)) ∧
      (place natW natH maxW maxH).2 * natW = (place natW natH maxW maxH).1 * natH ∧
      (place natW natH maxW maxH).1 ≤ maxW ∧
      (placeStage2 natW natH maxH (placeStage1 natW natH maxW)).1 ≤
        (placeStage1 natW natH maxW).1 ∧
      (placeStage2 natW natH maxH (placeStage1 natW natH maxW)).2 ≤
        (placeStage1 natW natH maxW).2 ∧
      (placeStage3 (placeStage2 natW natH maxH (placeStage1 natW natH maxW))).1 ≤
        (placeStage2 natW natH maxH (placeStage1 natW natH maxW)).1 ∧
      (placeStage3 (placeStage2 natW natH maxH (placeStage1 natW natH maxW))).2 ≤
        (placeStage2 natW natH maxH (placeStage1 natW natH maxW)).2) := by
  constructor
  · intro natW natH maxW maxH h
    unfold place
    rw [if_neg]
    rcases h with h | h
    · exact fun hc => absurd hc.1 (not_lt.mpr h)
    · exact fun hc => absurd hc.2 (not_lt.mpr h)
  · intro natW natH maxW maxH hw hh hm
    have hw' : natW ≠ 0 := ne_of_gt hw
    have hh' : natH ≠ 0 := ne_of_gt hh
    have ha : 0 < natH / natW := div_pos hh hw
    have hplace : place natW natH maxW maxH =
        placeStage3 (placeStage2 natW natH maxH (placeStage1 natW natH maxW)) := by
      unfold place
      rw [if_pos ⟨hw, hh⟩]
    set p1 := placeStage1 natW natH maxW with hp1def
    have hp1_1 : p1.1 = min maxW natW := rfl
    have hp1_2 : p1.2 = min maxW natW * (natH / natW) := rfl
    have hw1 : 0 < min maxW natW := lt_min hm hw
    have hR1 : p1.2 * natW = p1.1 * natH := by
      rw [hp1_1, hp1_2]
      field_simp
    set p2 := placeStage2 natW natH maxH p1 with hp2def
    obtain ⟨hR2, h21, h22⟩ :
        p2.2 * natW = p2.1 * natH ∧ p2.1 ≤ p1.1 ∧ p2.2 ≤ p1.2 := by
      rw [hp2def]
      unfold placeStage2
      rcases maxH with _ | m
      · exact ⟨hR1, le_rfl, le_rfl⟩
      · dsimp only
        by_cases hcond : m ≠ 0 ∧ m < p1.2
        · rw [if_pos hcond]
          refine ⟨?_, ?_, le_of_lt hcond.2⟩
          · dsimp only
            field_simp
          · dsimp only
            have h2 := hcond.2
            rw [hp1_2] at h2
            rw [hp1_1, div_le_iff₀ ha]
            exact le_of_lt h2
        · rw [if_neg hcond]
          exact ⟨hR1, le_rfl, le_rfl⟩
    have ht : 0 < A4ht * (4 / 5) := by norm_num [A4ht]
    obtain ⟨hR3, h31, h32⟩ :
        (placeStage3 p2).2 * natW = (placeStage3 p2).1 * natH ∧
        (placeStage3 p2).1 ≤ p2.1 ∧ (placeStage3 p2).2 ≤ p2.2 := by
      unfold placeStage3
      by_cases hcond : A4ht * (4 / 5) < p2.2
      · rw [if_pos hcond]
        have hp22 : 0 < p2.2 := lt_trans ht hcond
        have hp21 : 0 < p2.1 := by
          have hprod : 0 < p2.1 * natH := by
            rw [← hR2]
            exact mul_pos hp22 hw
          rcases mul_pos_iff.mp hprod with ⟨h, _⟩ | ⟨_, h⟩
          · exact h
          · exact absurd hh (not_lt.mpr (le_of_lt h))
        have hsf1 : (A4ht * (4 / 5)) / p2.2 ≤ 1 := le_of_lt ((div_lt_one hp22).mpr hcond)
        dsimp only
        refine ⟨?_, ?_, ?_⟩
        · linear_combination ((A4ht * (4 / 5)) / p2.2) * hR2
        · exact mul_le_of_le_one_right (le_of_lt hp21) hsf1
        · exact mul_le_of_le_one_right (le_of_lt hp22) hsf1
      · rw [if_neg hcond]
        exact ⟨hR2, le_rfl, le_rfl⟩
    refine ⟨hplace, ?_, ?_, h21, h22, h31, h32⟩
    · rw [hplace]
      exact hR3
    · rw [hplace]
      calc (placeStage3 p2).1 ≤ p2.1 := h31
        _ ≤ p1.1 := h21
        _ ≤ maxW := by
            rw [hp1_1]
            exact min_le_left _ _

/-- Witness for C3 at the concrete input `natural = 1000 × 500`,
`max_width = 400`, `max_height = 100`. -/
theorem place_clamp_spec_witness :
    place 1000 500 400 (some 100) =
      placeStage3 (placeStage2 1000 500 (some 100) (placeStage1 1000 500 400)) ∧
    (place 1000 500 400 (some 100)).2 * 1000 = (place 1000 500 400 (some 100)).1 * 500 ∧
    (place 1000 500 400 (some 100)).1 ≤ 400 ∧
    (placeStage2 1000 500 (some 100) (placeStage1 1000 500 400)).1 ≤
      (placeStage1 1000 500 400).1 ∧
    (placeStage2 1000 500 (some 100) (placeStage1 1000 500 400)).2 ≤
      (placeStage1 1000 500 400).2 ∧
    (placeStage3 (placeStage2 1000 500 (some 100) (placeStage1 1000 500 400))).1 ≤
      (placeStage2 1000 500 (some 100) (placeStage1 1000 500 400)).1 ∧
    (placeStage3 (placeStage2 1000 500 (some 100) (placeStage1 1000 500 400))).2 ≤
      (placeStage2 1000 500 (some 100) (placeStage1 1000 500 400)).2 :=
  place_clamp_spec.2 1000 500 400 (some 100) (by decide) (by decide) (by decide)

/-- `nlookup` misses exactly the keys not present. -/
theorem nlookup_eq_none (m : List (Nat × NoteRecord)) (k : Nat) :
    nlookup m k = none ↔ k ∉ m.map Prod.fst := by
  induction m with
  | nil => simp [nlookup]
  | cons p rest ih =>
    by_cases hk : p.1 = k
    · simp [nlookup, hk]
    · simp only [nlookup, List.map_cons, List.mem_cons]
      rw [if_neg hk, ih]
      constructor
      · intro hni hor
        rcases hor with h | h
        · exact hk h.symm
        · exact hni h
      · intro hni h
        exact hni (Or.inr h)

/-- Unpacking `cardValid`. -/
theorem cardValid_spec (ci : CardInfo) (h : cardValid ci = true) :
    ci.note = some (noteIdOf ci) ∧ noteIdOf ci ≠ 0 ∧ ci.fields ≠ [] ∧
    (roleField QUESTION_FIELD_NAMES ci.fields).isSome = true ∧
    (roleField ANSWER_FIELD_NAMES ci.fields).isSome = true := by
  simp only [cardValid, Bool.and_eq_true, decide_eq_true_eq] at h
  obtain ⟨⟨⟨h1, h2⟩, h3⟩, h4⟩ := h
  rcases hn : ci.note with _ | n
  · rw [hn] at h1
    simp at h1
  · rw [hn] at h1
    simp only [decide_eq_true_eq] at h1
    exact ⟨by simp [noteIdOf, hn], by simp [noteIdOf, hn, h1], h2, h3, h4⟩

/-- A valid item whose identity is already recorded leaves the state
unchanged. -/
theorem processCard_valid_seen (parse : String → Option (List HNode))
    (st : ExtractState) (ci : CardInfo) (hv : cardValid ci = true)
    (hmem : noteIdOf ci ∈ st.notes.map Prod.fst) :
    processCard parse st ci = st := by
  obtain ⟨hn, h0, hf, _, _⟩ := cardValid_spec ci hv
  unfold processCard
  rw [hn]
  dsimp only
  rw [if_neg (by simp [h0, hf])]
  rcases hvv : nlookup st.notes (noteIdOf ci) with _ | v
  · exact absurd ((nlookup_eq_none _ _).mp hvv) (not_not_intro hmem)
  · rfl

/-- A valid item with a fresh identity appends exactly its record. -/
theorem processCard_valid_new (parse : String → Option (List HNode))
    (st : ExtractState) (ci : CardInfo) (hv : cardValid ci = true)
    (hmem : noteIdOf ci ∉ st.notes.map Prod.fst) :
    processCard parse st ci =
      ⟨st.notes ++ [(noteIdOf ci, buildRecord parse ci)], st.diags⟩ := by
  obtain ⟨hn, h0, hf, hq, ha⟩ := cardValid_spec ci hv
  obtain ⟨qn, hqn⟩ := Option.isSome_iff_exists.mp hq
  obtain ⟨an, han⟩ := Option.isSome_iff_exists.mp ha
  unfold processCard
  rw [hn]
  dsimp only
  rw [if_neg (by simp [h0, hf]), (nlookup_eq_none _ _).mpr hmem, hqn, han]

/-- An item that is not recordable (missing/zero note id, empty fields, or
an unresolved role) never changes the notes dict, whatever the state. -/
theorem processCard_notes_invalid (parse : String → Option (List HNode))
    (st : ExtractState) (ci : CardInfo) (h : cardValid ci = false) :
    (processCard parse st ci).notes = st.notes := by
  unfold processCard
  rcases hn : ci.note with _ | nid
  · rfl
  · dsimp only
    by_cases h0 : nid = 0 ∨ ci.fields = []
    · rw [if_pos h0]
    · rw [if_neg h0]
      push_neg at h0
      rcases hl : nlookup st.notes nid with _ | v
      · rcases hq : roleField QUESTION_FIELD_NAMES ci.fields with _ | qn
        · rcases ha : roleField ANSWER_FIELD_NAMES ci.fields with _ | an <;> rfl
        · rcases ha : roleField ANSWER_FIELD_NAMES ci.fields with _ | an
          · rfl
          · exfalso
            have hv : cardValid ci = true := by
              simp [cardValid, hn, h0.1, h0.2, hq, ha]
            rw [h] at hv
            exact Bool.false_ne_true hv
      · rfl

/-- Total characterization of the per-card loop over *arbitrary* items: the
notes dict grows by exactly the recordable items with fresh identities, in
order, each contributing the record built from itself. -/
theorem foldl_processCard_notes (parse : String → Option (List HNode)) :
    ∀ (items : List CardInfo) (st : ExtractState),
      (items.foldl (processCard parse) st).notes =
        st.notes ++ (recordables (st.notes.map Prod.fst) items).map
          (fun ci => (noteIdOf ci, buildRecord parse ci)) := by
  intro items
  induction items with
  | nil =>
    intro st
    simp [recordables]
  | cons ci rest ih =>
    intro st
    rw [List.foldl_cons]
    by_cases hv : cardValid ci = true
    · by_cases hmem : noteIdOf ci ∈ st.notes.map Prod.fst
      · rw [processCard_valid_seen parse st ci hv hmem, ih st]
        simp only [recordables]
        rw [if_neg (fun hc => hc.2 hmem)]
      · rw [processCard_valid_new parse st ci hv hmem,
          ih ⟨st.notes ++ [(noteIdOf ci, buildRecord parse ci)], st.diags⟩]
        simp only [recordables]
        rw [if_pos ⟨hv, hmem⟩]
        simp [List.map_append, List.append_assoc]
    · have hb : cardValid ci = false := Bool.eq_false_iff.mpr hv
      rw [ih (processCard parse st ci), processCard_notes_invalid parse st ci hb]
      simp only [recordables]
      rw [if_neg (fun hc => hv hc.1)]

/-- One batch changes the notes dict exactly as the item fold over the items
it contributes (a failed or falsy batch contributes none). -/
theorem processBatch_notes (parse : String → Option (List HNode))
    (cardsInfo : List Nat → Option (List CardInfo)) (st : ExtractState)
    (b : List Nat) :
    (processBatch parse cardsInfo st b).notes =
      ((batchItems cardsInfo b).foldl (processCard parse) st).notes := by
  unfold processBatch batchItems
  rcases h : cardsInfo b with _ | l
  · rfl
  · cases l with
    | nil => rfl
    | cons x xs => rfl

/-- The batch loop changes the notes dict exactly as the item fold over the
concatenation of the items contributed by all batches — for *arbitrary* batch
outcomes. -/
theorem foldl_processBatch_notes (parse : String → Option (List HNode))
    (cardsInfo : List Nat → Option (List CardInfo)) :
    ∀ (batches : List (List Nat)) (st : ExtractState),
      (batches.foldl (processBatch parse cardsInfo) st).notes =
        (((batches.map (batchItems cardsInfo)).flatten).foldl
          (processCard parse) st).notes := by
  intro batches
  induction batches with
  | nil =>
    intro st
    rfl
  | cons b rest ih =>
    intro st
    rw [List.foldl_cons, List.map_cons, List.flatten_cons, List.foldl_append, ih,
      foldl_processCard_notes parse _ (processBatch parse cardsInfo st b),
      foldl_processCard_notes parse _
        ((batchItems cardsInfo b).foldl (processCard parse) st),
      processBatch_notes parse cardsInfo st b]

/-- The recorded items have pairwise distinct identities, none of them
already seen — for arbitrary item sequences. -/
theorem recordables_nodup (items : List CardInfo) :
    ∀ seen : List Nat,
      ((recordables seen items).map noteIdOf).Nodup ∧
      ∀ x ∈ (recordables seen items).map noteIdOf, x ∉ seen := by
  induction items with
  | nil =>
    intro seen
    simp [recordables]
  | cons ci rest ih =>
    intro seen
    simp only [recordables]
    by_cases hc : cardValid ci = true ∧ noteIdOf ci ∉ seen
    · rw [if_pos hc]
      obtain ⟨hnd, hnin⟩ := ih (seen ++ [noteIdOf ci])
      refine ⟨?_, ?_⟩
      · simp only [List.map_cons, List.nodup_cons]
        refine ⟨fun hx => ?_, hnd⟩
        have := hnin _ hx
        simp at this
      · intro x hx
        simp only [List.map_cons, List.mem_cons] at hx
        rcases hx with rfl | hx
        · exact hc.2
        · intro hxs
          exact (hnin x hx) (by simp [hxs])
    · rw [if_neg hc]
      exact ih seen

/-- The recorded identities are the first-seen identities among the
recordable items — for arbitrary item sequences. -/
theorem recordables_map_firstSeen (items : List CardInfo) :
    ∀ acc : List Nat,
      acc ++ (recordables acc items).map noteIdOf =
        (items.filter (fun ci => cardValid ci)).foldl
          (fun acc ci =>
            match ci.note with
            | some n => if n ∈ acc then acc else acc ++ [n]
            | none => acc) acc := by
  induction items with
  | nil =>
    intro acc
    simp [recordables]
  | cons ci rest ih =>
    intro acc
    by_cases hv : cardValid ci = true
    · rw [List.filter_cons_of_pos hv, List.foldl_cons]
      have hn := (cardValid_spec ci hv).1
      rw [hn]
      dsimp only
      by_cases hmem : noteIdOf ci ∈ acc
      · rw [if_pos hmem]
        simp only [recordables]
        rw [if_neg (fun hc => hc.2 hmem)]
        exact ih acc
      · rw [if_neg hmem]
        simp only [recordables]
        rw [if_pos ⟨hv, hmem⟩, ← ih (acc ++ [noteIdOf ci])]
        simp [List.append_assoc]
    · rw [List.filter_cons_of_neg (by simpa using hv)]
      simp only [recordables]
      rw [if_neg (fun hc => hv hc.1)]
      exact ih acc

/-- Every recorded item is the *first* recordable item of its identity in the
whole sequence — for arbitrary item sequences. -/
theorem recordables_find_first (items : List CardInfo) :
    ∀ (seen : List Nat) (ci : CardInfo), ci ∈ recordables seen items →
      items.find? (fun cj => cardValid cj && (noteIdOf cj == noteIdOf ci)) = some ci := by
  induction items with
  | nil =>
    intro seen ci h
    simp [recordables] at h
  | cons cj rest ih =>
    intro seen ci hmem
    simp only [recordables] at hmem
    by_cases hc : cardValid cj = true ∧ noteIdOf cj ∉ seen
    · rw [if_pos hc] at hmem
      rcases List.mem_cons.mp hmem with rfl | hmem2
      · exact List.find?_cons_of_pos _ (by simp [hc.1])
      · have hne : noteIdOf ci ≠ noteIdOf cj := by
          have h2 := (recordables_nodup rest (seen ++ [noteIdOf cj])).2
          have h3 := h2 (noteIdOf ci) (List.mem_map_of_mem _ hmem2)
          intro heq
          exact h3 (by simp [heq])
        rw [List.find?_cons_of_neg _ (by simp [Ne.symm hne])]
        exact ih (seen ++ [noteIdOf cj]) ci hmem2
    · rw [if_neg hc] at hmem
      have hids : noteIdOf ci ∉ seen :=
        (recordables_nodup rest seen).2 _ (List.mem_map_of_mem _ hmem)
      cases hcv : cardValid cj with
      | false =>
        rw [List.find?_cons_of_neg _ (by simp [hcv])]
        exact ih seen ci hmem
      | true =>
        have hin : noteIdOf cj ∈ seen := by
          by_contra hnin
          exact hc ⟨hcv, hnin⟩
        have hne : noteIdOf cj ≠ noteIdOf ci := fun heq => hids (heq ▸ hin)
        rw [List.find?_cons_of_neg _ (by simp [hne])]
        exact ih seen ci hmem

/-- C1 counterexample: three items over two note identities; the first item
of note 1 carries no resolvable roles, so the later item of note 1 builds the
record and note 1 is recorded *after* note 2 — the output order `[2, 1]`
differs from the first-seen identity order `[1, 2]`, and note 1's record is
built from the third item (question text `"q1"`), not from the first item
encountered for that identity. -/
theorem extract_dedup_cex :
    (extract_anki_data_connect (fun _ => none) (some [11, 12, 13])
        (fun _ => some
          [⟨some 1, [("jiné", "x")], some "M1", some 11⟩,
           ⟨some 2, [("Front", "q2"), ("Back", "a2")], some "M2", some 12⟩,
           ⟨some 1, [("Front", "q1"), ("Back", "a1")], some "M1", some 13⟩])).map
        (fun p => p.1.map NoteRecord.note_id) = some [2, 1] ∧
    firstSeenIds
        [⟨some 1, [("jiné", "x")], some "M1", some 11⟩,
         ⟨some 2, [("Front", "q2"), ("Back", "a2")], some "M2", some 12⟩,
         ⟨some 1, [("Front", "q1"), ("Back", "a1")], some "M1", some 13⟩] = [1, 2] ∧
    ¬([2, 1] = ([1, 2] : List Nat)) ∧
    (extract_anki_data_connect (fun _ => none) (some [11, 12, 13])
        (fun _ => some
          [⟨some 1, [("jiné", "x")], some "M1", some 11⟩,
           ⟨some 2, [("Front", "q2"), ("Back", "a2")], some "M2", some 12⟩,
           ⟨some 1, [("Front", "q1"), ("Back", "a1")], some "M1", some 13⟩])).map
        (fun p => p.1.map NoteRecord.q_text) = some ["q2", "q1"] := by
  exact ⟨by decide, by decide, by decide, by decide⟩

/-- C1 amended: for every run (arbitrary batch outcomes, arbitrary mix of
valid and invalid items), extraction produces at most one NoteRecord per
note identity (the output identities are pairwise distinct); each record is
built from the *first* item of its identity whose note id and fields are
present and whose question/answer roles resolve (the first recordable item,
found by a scan of the whole contributed item sequence) — not necessarily
the first item encountered; and the returned list preserves the first-seen
order of identities among the recordable items, i.e. the order in which
identities are first successfully recorded (which coincides with plain
first-seen order exactly when every item of the run is recordable). -/
theorem extract_dedup_amended (parse : String → Option (List HNode))
    (ids : List Nat) (cardsInfo : List Nat → Option (List CardInfo))
    (hids : ids ≠ []) :
    ∀ recs diags,
      extract_anki_data_connect parse (some ids) cardsInfo = some (recs, diags) →
      recs = (recordables []
          (((chunks 100 ids).map (batchItems cardsInfo)).flatten)).map
          (buildRecord parse) ∧
      recs.map NoteRecord.note_id =
        firstSeenIds ((((chunks 100 ids).map (batchItems cardsInfo)).flatten).filter
          (fun ci => cardValid ci)) ∧
      (recs.map NoteRecord.note_id).Nodup ∧
      ∀ ci ∈ recordables [] (((chunks 100 ids).map (batchItems cardsInfo)).flatten),
        (((chunks 100 ids).map (batchItems cardsInfo)).flatten).find?
          (fun cj => cardValid cj && (noteIdOf cj == noteIdOf ci)) = some ci := by
  intro recs diags hres
  have hrecs : recs = (recordables []
      (((chunks 100 ids).map (batchItems cardsInfo)).flatten)).map
      (buildRecord parse) := by
    cases ids with
    | nil => exact absurd rfl hids
    | cons a as =>
      have h1 : some
          ((((chunks 100 (a :: as)).foldl (processBatch parse cardsInfo)
              ⟨[], []⟩).notes.map Prod.snd),
           ((chunks 100 (a :: as)).foldl (processBatch parse cardsInfo)
              ⟨[], []⟩).diags) = some (recs, diags) := hres
      injection h1 with h1
      have h2 := congrArg Prod.fst h1
      dsimp only at h2
      rw [← h2, foldl_processBatch_notes parse cardsInfo _ _,
        foldl_processCard_notes parse _ _]
      simp [List.map_map, Function.comp]
  have hcomp : ((recordables []
      (((chunks 100 ids).map (batchItems cardsInfo)).flatten)).map
      (buildRecord parse)).map NoteRecord.note_id =
      (recordables [] (((chunks 100 ids).map (batchItems cardsInfo)).flatten)).map
        noteIdOf := by
    rw [List.map_map]
    rfl
  refine ⟨hrecs, ?_, ?_, ?_⟩
  · rw [hrecs, hcomp]
    unfold firstSeenIds
    have := recordables_map_firstSeen
      (((chunks 100 ids).map (batchItems cardsInfo)).flatten) []
    simpa using this
  · rw [hrecs, hcomp]
    exact (recordables_nodup (((chunks 100 ids).map (batchItems cardsInfo)).flatten) []).1
  · exact fun ci hci =>
      recordables_find_first (((chunks 100 ids).map (batchItems cardsInfo)).flatten)
        [] ci hci

/-- Witness for C1's amended theorem at the mixed concrete run of the
counterexample: the first item of note 1 is not recordable, the record for
note 1 is built from the third item (the first recordable one for that
identity, as the find? clause shows), the output identities are the
first-seen identities among the recordable items, and they are pairwise
distinct. -/
theorem extract_dedup_amended_witness :
    ([⟨2, "M2", "q2", [], "a2", []⟩, ⟨1, "M1", "q1", [], "a1", []⟩] :
        List NoteRecord) =
      (recordables []
        (((chunks 100 [11, 12, 13]).map (batchItems (fun _ => some
          [⟨some 1, [("jiné", "x")], some "M1", some 11⟩,
           ⟨some 2, [("Front", "q2"), ("Back", "a2")], some "M2", some 12⟩,
           ⟨some 1, [("Front", "q1"), ("Back", "a1")], some "M1", some 13⟩]))).flatten)).map
        (buildRecord (fun _ => none)) ∧
    ([⟨2, "M2", "q2", [], "a2", []⟩, ⟨1, "M1", "q1", [], "a1", []⟩] :
        List NoteRecord).map NoteRecord.note_id =
      firstSeenIds ((((chunks 100 [11, 12, 13]).map (batchItems (fun _ => some
          [⟨some 1, [("jiné", "x")], some "M1", some 11⟩,
           ⟨some 2, [("Front", "q2"), ("Back", "a2")], some "M2", some 12⟩,
           ⟨some 1, [("Front", "q1"), ("Back", "a1")], some "M1", some 13⟩]))).flatten).filter
        (fun ci => cardValid ci)) ∧
    (([⟨2, "M2", "q2", [], "a2", []⟩, ⟨1, "M1", "q1", [], "a1", []⟩] :
        List NoteRecord).map NoteRecord.note_id).Nodup ∧
    (((chunks 100 [11, 12, 13]).map (batchItems (fun _ => some
        [⟨some 1, [("jiné", "x")], some "M1", some 11⟩,
         ⟨some 2, [("Front", "q2"), ("Back", "a2")], some "M2", some 12⟩,
         ⟨some 1, [("Front", "q1"), ("Back", "a1")], some "M1", some 13⟩]))).flatten).find?
        (fun cj => cardValid cj &&
          (noteIdOf cj ==
            noteIdOf ⟨some 1, [("Front", "q1"), ("Back", "a1")], some "M1", some 13⟩)) =
      some ⟨some 1, [("Front", "q1"), ("Back", "a1")], some "M1", some 13⟩ := by
  have h := extract_dedup_amended (fun _ => none) [11, 12, 13]
    (fun _ => some
      [⟨some 1, [("jiné", "x")], some "M1", some 11⟩,
       ⟨some 2, [("Front", "q2"), ("Back", "a2")], some "M2", some 12⟩,
       ⟨some 1, [("Front", "q1"), ("Back", "a1")], some "M1", some 13⟩])
    (by decide)
    [⟨2, "M2", "q2", [], "a2", []⟩, ⟨1, "M1", "q1", [], "a1", []⟩]
    [Diag.noRoles 1 (some "M1") ["jiné"]] (by decide)
  exact ⟨h.1, h.2.1, h.2.2.1,
    h.2.2.2 ⟨some 1, [("Front", "q1"), ("Back", "a1")], some "M1", some 13⟩ (by decide)⟩

/-- One image step only appends to the error log. -/
theorem imageBlocks_errLog (oracle : String → Option String)
    (decode : String → Except String Bytes) (compress : Option (Bytes → Bytes))
    (getSize : Bytes → Except String (ℚ × ℚ)) (availW : ℚ) (nid : Nat) (f : String)
    (st : AsmState) :
    ∃ t, (imageBlocks oracle decode compress getSize availW nid f st).2.errLog =
      st.errLog ++ t := by
  unfold imageBlocks
  dsimp only
  rcases hd : (get_media_data oracle decode compress f (some nid) st.cache).data
    with _ | data
  · exact ⟨_, List.append_assoc _ _ _⟩
  · dsimp only
    split
    · exact ⟨_, List.append_assoc _ _ _⟩
    · exact ⟨_, List.append_assoc _ _ _⟩

/-- The image loop only appends to the error log (general fold initial
state). -/
theorem imagesFold_aux_errLog (oracle : String → Option String)
    (decode : String → Except String Bytes) (compress : Option (Bytes → Bytes))
    (getSize : Bytes → Except String (ℚ × ℚ)) (availW : ℚ) (nid : Nat) :
    ∀ (files : List String) (init : List Block × AsmState),
      ∃ t, (files.foldl
          (fun acc f =>
            let r := imageBlocks oracle decode compress getSize availW nid f acc.2
            (acc.1 ++ r.1, r.2)) init).2.errLog = init.2.errLog ++ t := by
  intro files
  induction files with
  | nil =>
    intro init
    exact ⟨[], by simp⟩
  | cons f fs ih =>
    intro init
    rw [List.foldl_cons]
    obtain ⟨t1, h1⟩ := imageBlocks_errLog oracle decode compress getSize availW nid f init.2
    obtain ⟨t2, h2⟩ :=
      ih (init.1 ++ (imageBlocks oracle decode compress getSize availW nid f init.2).1,
        (imageBlocks oracle decode compress getSize availW nid f init.2).2)
    refine ⟨t1 ++ t2, ?_⟩
    dsimp only at h2 ⊢
    rw [h2, h1, List.append_assoc]

/-- `imagesFold` only appends to the error log. -/
theorem imagesFold_errLog (oracle : String → Option String)
    (decode : String → Except String Bytes) (compress : Option (Bytes → Bytes))
    (getSize : Bytes → Except String (ℚ × ℚ)) (availW : ℚ) (nid : Nat)
    (files : List String) (st : AsmState) :
    ∃ t, (imagesFold oracle decode compress getSize availW nid files st).2.errLog =
      st.errLog ++ t :=
  imagesFold_aux_errLog oracle decode compress getSize availW nid files ([], st)

/-- One record's assembly only appends to the error log. -/
theorem cardBlocks_errLog (oracle : String → Option String)
    (decode : String → Except String Bytes) (compress : Option (Bytes → Bytes))
    (getSize : Bytes → Except String (ℚ × ℚ)) (paraAccepts : String → Bool)
    (availW : ℚ) (card : NoteRecord) (st : AsmState) :
    ∃ t, (cardBlocks oracle decode compress getSize paraAccepts availW card st).2.errLog =
      st.errLog ++ t := by
  unfold cardBlocks
  dsimp only
  obtain ⟨t1, h1⟩ :=
    imagesFold_errLog oracle decode compress getSize availW card.note_id card.q_images st
  obtain ⟨t2, h2⟩ :=
    imagesFold_errLog oracle decode compress getSize availW card.note_id card.a_images
      (imagesFold oracle decode compress getSize availW card.note_id card.q_images st).2
  exact ⟨t1 ++ t2, by rw [h2, h1, List.append_assoc]⟩

/-- The record loop of `create_pdf_connect` only appends to the error log. -/
theorem story_fold_errLog (oracle : String → Option String)
    (decode : String → Except String Bytes) (compress : Option (Bytes → Bytes))
    (getSize : Bytes → Except String (ℚ × ℚ)) (paraAccepts : String → Bool)
    (availW : ℚ) (n : Nat) :
    ∀ (l : List (Nat × NoteRecord)) (init : List Block × AsmState),
      ∃ t, (l.foldl
          (fun (acc : List Block × AsmState) ic =>
            let cb := cardBlocks oracle decode compress getSize paraAccepts availW ic.2 acc.2
            let sep := if ic.1 < n - 1 then [Block.pageBreak] else []
            (acc.1 ++ cb.1 ++ sep, cb.2)) init).2.errLog = init.2.errLog ++ t := by
  intro l
  induction l with
  | nil =>
    intro init
    exact ⟨[], by simp⟩
  | cons ic rest ih =>
    intro init
    rw [List.foldl_cons]
    obtain ⟨t1, h1⟩ :=
      cardBlocks_errLog oracle decode compress getSize paraAccepts availW ic.2 init.2
    obtain ⟨t2, h2⟩ :=
      ih (init.1 ++
          (cardBlocks oracle decode compress getSize paraAccepts availW ic.2 init.2).1 ++
          (if ic.1 < n - 1 then [Block.pageBreak] else []),
        (cardBlocks oracle decode compress getSize paraAccepts availW ic.2 init.2).2)
    refine ⟨t1 ++ t2, ?_⟩
    dsimp only at h2 ⊢
    rw [h2, h1, List.append_assoc]

/-- C9 counterexample: a run over one record with a pre-existing error-log
entry writes the error-report file but leaves the process-wide log intact —
the log is never cleared, so a subsequent run in the same process starts
with the previous entries still in place. -/
theorem create_pdf_error_log_cex :
    (create_pdf_connect (fun _ => none) (fun _ => Except.error "e") none
        (fun _ => Except.error "e") (fun _ => true)
        [⟨7, "M", "q", [], "a", []⟩] "out.pdf" [] ["note_id=1: m"]).map
        PdfResult.errLog = some ["note_id=1: m"] ∧
    ¬((create_pdf_connect (fun _ => none) (fun _ => Except.error "e") none
        (fun _ => Except.error "e") (fun _ => true)
        [⟨7, "M", "q", [], "a", []⟩] "out.pdf" [] ["note_id=1: m"]).map
        PdfResult.errLog = some []) ∧
    (create_pdf_connect (fun _ => none) (fun _ => Except.error "e") none
        (fun _ => Except.error "e") (fun _ => true)
        [⟨7, "M", "q", [], "a", []⟩] "out.pdf" [] ["note_id=1: m"]).map
        PdfResult.errFile =
      some (some ("out_errors.txt",
        "Chybové hlášky při generování PDF\nnote_id=1: m\n")) := by
  exact ⟨by decide, by decide, by decide⟩

/-- C9 amended: at the end of assembly, if the error log is non-empty it is
written as one plain-text file beside the output artifact (same base name
with the `_errors.txt` suffix, a header line followed by one
`note_id=<id>: <message>` entry per line), and no file is written when the
log is empty; but the log is *not* cleared afterwards — the entries present
at entry are still a prefix of the log when the run returns, so a subsequent
run in the same process starts with them. -/
theorem create_pdf_error_report_amended (oracle : String → Option String)
    (decode : String → Except String Bytes) (compress : Option (Bytes → Bytes))
    (getSize : Bytes → Except String (ℚ × ℚ)) (paraAccepts : String → Bool)
    (cards : List NoteRecord) (path : String) (cache0 : Cache)
    (errLog0 : List String) (hcards : cards ≠ []) :
    ∀ res, create_pdf_connect oracle decode compress getSize paraAccepts cards path
        cache0 errLog0 = some res →
      (res.errLog ≠ [] →
        res.errFile =
          some (splitextRoot path ++ "_errors.txt", errFileContent res.errLog)) ∧
      (res.errLog = [] → res.errFile = none) ∧
      res.errLog.take errLog0.length = errLog0 ∧
      (errLog0 ≠ [] → res.errLog ≠ []) := by
  intro res hres
  unfold create_pdf_connect at hres
  rw [if_neg hcards] at hres
  injection hres with hres
  obtain ⟨t, ht⟩ :=
    story_fold_errLog oracle decode compress getSize paraAccepts docWidth
      cards.length cards.enum ([], ⟨cache0, errLog0⟩)
  dsimp only at ht
  rw [← hres]
  dsimp only
  have hlog : (cards.enum.foldl
      (fun (acc : List Block × AsmState) ic =>
        let cb := cardBlocks oracle decode compress getSize paraAccepts docWidth ic.2 acc.2
        let sep := if ic.1 < cards.length - 1 then [Block.pageBreak] else []
        (acc.1 ++ cb.1 ++ sep, cb.2)) ([], ⟨cache0, errLog0⟩)).2.errLog =
      errLog0 ++ t := ht
  rw [hlog]
  refine ⟨fun hne => ?_, fun hnil => ?_, ?_, fun hne0 => ?_⟩
  · rw [if_neg hne]
  · rw [if_pos hnil]
  · exact List.take_left errLog0 t
  · intro heq
    rcases List.append_eq_nil.mp heq with ⟨h0, _⟩
    exact hne0 h0

/-- Witness for C9's amended theorem at a concrete run. -/
theorem create_pdf_error_report_amended_witness :
    ((create_pdf_connect (fun _ => none) (fun _ => Except.error "e") none
          (fun _ => Except.error "e") (fun _ => true)
          [⟨7, "M", "q", [], "a", []⟩] "out.pdf" [] ["note_id=1: m"]).getD
        ⟨[], [], [], none⟩).errLog.take 1 = ["note_id=1: m"] := by
  have h := create_pdf_error_report_amended (fun _ => none) (fun _ => Except.error "e")
    none (fun _ => Except.error "e") (fun _ => true)
    [⟨7, "M", "q", [], "a", []⟩] "out.pdf" [] ["note_id=1: m"] (by decide)
    (((create_pdf_connect (fun _ => none) (fun _ => Except.error "e") none
        (fun _ => Except.error "e") (fun _ => true)
        [⟨7, "M", "q", [], "a", []⟩] "out.pdf" [] ["note_id=1: m"]).getD
      ⟨[], [], [], none⟩)) rfl
  exact h.2.2.1

end AnkiToPdf
